import Mathlib

/-!
Shallow embedding of the `timestamped-lyrics` client (`src/Client.ts`).

The two pieces of logic are `parseSyncedLyrics` (timestamp parsing and
end-time derivation) and `getLyrics` (duration-based best-match selection).
JavaScript strings are modelled as Lean `String` / `List Char`, numbers as
`ℚ`, and thrown exceptions as `Except LyricError`.  The HTTP fetch inside
`querySongLyrics` is abstracted away: the provider's response list is an
explicit argument.
-/

/-- One search-result entry from the lyrics provider, mirroring
`LyricSearchResult` in `src/types/LyricalSearchResult.ts`. -/
structure LyricSearchResult where
  id : Int
  name : String
  trackName : String
  artistName : String
  albumName : String
  duration : ℚ
  instrumental : Bool
  plainLyrics : String
  syncedLyrics : String
deriving DecidableEq

/-- A parsed timed lyric line, mirroring `LyricLine` in
`src/types/LyricLine.ts`. -/
structure LyricLine where
  start : ℚ
  «end» : ℚ
  text : String
deriving DecidableEq

/-- The intermediate `{ line, start }` objects pushed onto `startingLines`
inside `parseSyncedLyrics`. -/
structure StartLine where
  line : String
  start : ℚ
deriving DecidableEq

/-- The failure conditions of the client.  `invalidArgument` is the thrown
`"songduration must be a number"`, `notFound` the `"No lyrics found ..."`
family, `noSyncedLyrics` the `"No synced lyrics available for this song"`
message, and `typeError` the JavaScript `TypeError` raised by calling
`Array.prototype.reduce` on an empty array with no initial value. -/
inductive LyricError where
  | invalidArgument
  | notFound
  | noSyncedLyrics
  | typeError
deriving DecidableEq

/-- A JavaScript runtime value that a caller may pass as the `duration`
option of `getLyrics` (TypeScript declares `number`, but the runtime check
`duration && typeof duration !== "number"` shows other values can arrive). -/
inductive JSVal where
  | num (q : ℚ)
  | str (s : String)
  | boolean (b : Bool)
  | null
deriving DecidableEq

instance {ε α : Type} [DecidableEq ε] [DecidableEq α] : DecidableEq (Except ε α) := fun x y =>
  match x, y with
  | .ok a, .ok b =>
    if h : a = b then isTrue (by rw [h]) else isFalse (by intro hh; cases hh; exact h rfl)
  | .ok _, .error _ => isFalse (by intro hh; cases hh)
  | .error _, .ok _ => isFalse (by intro hh; cases hh)
  | .error e, .error f =>
    if h : e = f then isTrue (by rw [h]) else isFalse (by intro hh; cases hh; exact h rfl)

/-- JavaScript truthiness of a `JSVal`: `0`, `""`, `false` and `null` are
falsy, everything else modelled here is truthy. -/
def jsTruthy : JSVal → Bool
  | .num q => decide (q ≠ 0)
  | .str s => decide (s ≠ "")
  | .boolean b => b
  | .null => false

/-- `typeof v === "number"` for the modelled values. -/
def isNumberType : JSVal → Bool
  | .num _ => true
  | .str _ => false
  | .boolean _ => false
  | .null => false

/-- The guard `duration && typeof duration !== "number"` of `getLyrics`
(an absent option is `undefined`, which is falsy). -/
def badDuration : Option JSVal → Bool
  | none => false
  | some v => jsTruthy v && !isNumberType v

/-- Truthiness of the optional `duration`, as tested by `if (duration)`. -/
def optTruthy : Option JSVal → Bool
  | none => false
  | some v => jsTruthy v

/-- The numeric value of the `duration` option; only looked at on the
branch where the option is a truthy number. -/
def numVal : Option JSVal → ℚ
  | some (.num q) => q
  | _ => 0

/-- The whitespace set of JavaScript `String.prototype.trim` (space, tab,
line terminators, vertical tab, form feed, no-break space, BOM, and the
Unicode line/paragraph separators). -/
def isJsSpace (c : Char) : Bool :=
  c = ' ' || c = '\t' || c = '\n' || c = '\r' || c = '\x0b' || c = '\x0c' ||
  c = '\u00a0' || c = '\ufeff' || c = '\u2028' || c = '\u2029'

/-- JavaScript `s.trim()` on the character list of a string. -/
def trimChars (l : List Char) : List Char :=
  ((l.dropWhile isJsSpace).reverse.dropWhile isJsSpace).reverse

/-- JavaScript `s.split("\n")`: the pieces between line feeds, keeping
empty pieces (so `"a\n"` splits into `["a", ""]`). -/
def splitLines : List Char → List (List Char)
  | [] => [[]]
  | c :: rest =>
    if c = '\n' then [] :: splitLines rest
    else
      match splitLines rest with
      | [] => [[c]]
      | l :: ls => (c :: l) :: ls

/-- Numeric value of an ASCII digit character. -/
def digitVal (c : Char) : Nat := c.toNat - '0'.toNat

/-- The characters that the JavaScript regex metacharacter `.` refuses to
match: the line terminators. -/
def isLineTerminator (c : Char) : Bool :=
  c = '\n' || c = '\r' || c = '\u2028' || c = '\u2029'

/-- The regex `^\[(\d{2}):(\d{2}\.\d{2})\](.*)$` of `parseSyncedLyrics`.
On success it returns the minutes, the integral seconds, the hundredths,
and the `<rest>` capture.  `$` has no `m` flag, so `(.*)$` succeeds only
when every remaining character is acceptable to `.`. -/
def matchTimestamp (l : List Char) : Option (Nat × Nat × Nat × List Char) :=
  match l with
  | '[' :: a :: b :: ':' :: c :: d :: '.' :: e :: f :: ']' :: rest =>
    if a.isDigit && b.isDigit && c.isDigit && d.isDigit && e.isDigit && f.isDigit
        && rest.all (fun ch => !(isLineTerminator ch)) then
      some (10 * digitVal a + digitVal b, 10 * digitVal c + digitVal d,
            10 * digitVal e + digitVal f, rest)
    else
      none
  | _ => none

/-- The literal fallback text assigned by `if (!text) text = "..."` in the
source; the file stores the four characters U+00F0 U+0178 U+017D U+00B5 (a
musical-note glyph whose bytes were decoded with the wrong charset). -/
def placeholder : String := "ðŸŽµ"

/-- `text.replace(/\n/g, " ")`. -/
def replaceNewlines (l : List Char) : List Char :=
  l.map fun c => if c = '\n' then ' ' else c

/-- The body of the first loop of `parseSyncedLyrics` for one physical
line: skip blank lines, skip lines that do not match the timestamp regex,
and otherwise build the `{ line, start }` record, with the blank-text
placeholder substitution and the (unreachable after `split("\n")`)
newline collapsing. -/
def processLine (l : List Char) : Option StartLine :=
  if trimChars l = [] then none
  else
    match matchTimestamp l with
    | none => none
    | some (mm, ss, ff, rest) =>
      let start : ℚ := (mm : ℚ) * 60 + (ss : ℚ) + (ff : ℚ) / 100
      let text0 := trimChars rest
      let text1 := if text0 = [] then placeholder.data else text0
      let text2 := if text1.contains '\n' then replaceNewlines text1 else text1
      some ⟨String.mk text2, start⟩

/-- The second loop of `parseSyncedLyrics`: attach to each recorded line
the start of the following one, and to the last recorded line the track's
declared duration. -/
def attachEnds (dur : ℚ) : List StartLine → List LyricLine
  | [] => []
  | [a] => [⟨a.start, dur, a.line⟩]
  | a :: b :: rest => ⟨a.start, b.start, a.line⟩ :: attachEnds dur (b :: rest)

/-- The `startingLines` array computed by the first loop of
`parseSyncedLyrics` for a given record. -/
def startLinesOf (lyrics : LyricSearchResult) : List StartLine :=
  (splitLines lyrics.syncedLyrics.data).filterMap processLine

/-- `LyricalClient.parseSyncedLyrics` from `src/Client.ts`. -/
def parseSyncedLyrics (lyrics : LyricSearchResult) : Except LyricError (List LyricLine) :=
  if lyrics.syncedLyrics = "" then .error .noSyncedLyrics
  else .ok (attachEnds lyrics.duration (startLinesOf lyrics))

/-- The `syncedOnly` filter `item.syncedLyrics && item.syncedLyrics.length > 0`. -/
def syncedFilter (data : List LyricSearchResult) : List LyricSearchResult :=
  data.filter fun item => item.syncedLyrics ≠ ""

/-- `LyricalClient.querySongLyrics`, with the HTTP fetch abstracted: `data`
is the JSON array the provider answered with. -/
def querySongLyrics (data : List LyricSearchResult) (syncedOnly : Bool) :
    Except LyricError (List LyricSearchResult) :=
  if data = [] then .error .notFound
  else if syncedOnly then .ok (syncedFilter data) else .ok data

/-- The reducer `(prev, curr) => currDiff < prevDiff ? curr : prev` used by
`getLyrics` to pick the duration-closest record. -/
def closerTo (target : ℚ) (prev curr : LyricSearchResult) : LyricSearchResult :=
  if |curr.duration - target| < |prev.duration - target| then curr else prev

/-- The candidate list `getLyrics` selects from: the raw search result,
filtered by `syncedFilter` when `syncedOnly` is set. -/
def filteredOf (data : List LyricSearchResult) (syncedOnly : Bool) : List LyricSearchResult :=
  if syncedOnly then syncedFilter data else data

/-- `LyricalClient.getLyrics`, with the search abstracted as in
`querySongLyrics` (which it calls with no options, hence `syncedOnly =
false` there).  The empty-list arm of the reduce models the `TypeError`
JavaScript raises for `[].reduce(f)` with no initial value. -/
def getLyrics (searchData : List LyricSearchResult) (duration : Option JSVal)
    (syncedOnly : Bool) : Except LyricError LyricSearchResult :=
  if badDuration duration then .error .invalidArgument
  else
    match querySongLyrics searchData false with
    | .error e => .error e
    | .ok data0 =>
      if data0 = [] then .error .notFound
      else
        let data := if syncedOnly then syncedFilter data0 else data0
        if optTruthy duration then
          match data with
          | [] => .error .typeError
          | x :: xs => .ok (xs.foldl (closerTo (numVal duration)) x)
        else
          match data with
          | [] => .error .notFound
          | x :: _ => .ok x

/-- The line grammar of the claim: `[MM:SS.ff]<rest>` with exactly two
digits in each numeric field, a literal period, and a rest that the
regex metacharacter `.` accepts (no line terminators). -/
def timestampGrammar (l : List Char) : Prop :=
  ∃ (a b c d e f : Char) (rest : List Char),
    l = '[' :: a :: b :: ':' :: c :: d :: '.' :: e :: f :: ']' :: rest ∧
    a.isDigit = true ∧ b.isDigit = true ∧ c.isDigit = true ∧
    d.isDigit = true ∧ e.isDigit = true ∧ f.isDigit = true ∧
    ∀ ch ∈ rest, isLineTerminator ch = false

/-- Test fixture: a record with the given duration and synced-lyrics text. -/
def mkRec (dur : ℚ) (synced : String) : LyricSearchResult :=
  { id := 1, name := "n", trackName := "t", artistName := "a", albumName := "b",
    duration := dur, instrumental := false, plainLyrics := "", syncedLyrics := synced }

/-- Fixture: a single matching synced line, track duration 10. -/
def oneLineRec : LyricSearchResult := mkRec 10 "[00:01.50]Hello"

/-- Fixture: the spec scenario `"[00:01.50]Hello\n[00:03.00]World"`. -/
def scenarioRec : LyricSearchResult := mkRec 10 "[00:01.50]Hello\n[00:03.00]World"

/-- Fixture: a timestamped line whose rest is only whitespace. -/
def wsRec : LyricSearchResult := mkRec 70 "[01:02.30]   "

/-- Fixture: two matching lines whose timestamps appear out of order. -/
def outOfOrderRec : LyricSearchResult := mkRec 10 "[00:02.00]B\n[00:01.00]A"

/-- Fixture: non-empty synced text in which no line matches the grammar. -/
def noMatchRec : LyricSearchResult := mkRec 10 "hello world"

/-- Fixture: a record with empty synced-lyrics text. -/
def noSyncRec : LyricSearchResult := mkRec 200 ""

/-- Fixture: records with durations 200, 260 and 300. -/
def rec200 : LyricSearchResult := mkRec 200 "x"

/-- Fixture: see `rec200`. -/
def rec260 : LyricSearchResult := mkRec 260 "x"

/-- Fixture: see `rec200`. -/
def rec300 : LyricSearchResult := mkRec 300 "x"

/-- Fixture: a record of duration 5, for the zero-target counterexample. -/
def dur5Rec : LyricSearchResult := mkRec 5 "x"

/-- Fixture: a record of duration 0, for the zero-target counterexample. -/
def dur0Rec : LyricSearchResult := mkRec 0 "x"

/-! ### Structure lemmas about `attachEnds` -/

theorem attachEnds_length (dur : ℚ) (sl : List StartLine) :
    (attachEnds dur sl).length = sl.length := by
  induction sl with
  | nil => rfl
  | cons a tl ih =>
    cases tl with
    | nil => rfl
    | cons b rest => simpa [attachEnds] using ih

theorem attachEnds_get_start (dur : ℚ) (sl : List StartLine) (i : Nat)
    (h : i < (attachEnds dur sl).length) (h2 : i < sl.length) :
    ((attachEnds dur sl).get ⟨i, h⟩).start = (sl.get ⟨i, h2⟩).start := by
  induction sl generalizing i with
  | nil => simp at h2
  | cons a tl ih =>
    cases tl with
    | nil =>
      cases i with
      | zero => rfl
      | succ n => exact absurd h2 (by simp)
    | cons b rest =>
      cases i with
      | zero => rfl
      | succ n =>
        have hn : n < (attachEnds dur (b :: rest)).length := by
          simpa [attachEnds] using h
        have hn2 : n < (b :: rest).length := by simpa using h2
        have hL : (attachEnds dur (a :: b :: rest)).get ⟨n + 1, h⟩ =
            (attachEnds dur (b :: rest)).get ⟨n, hn⟩ := by
          simp [attachEnds]
        rw [hL, ih n hn hn2]
        rfl

theorem attachEnds_get_end (dur : ℚ) (sl : List StartLine) (i : Nat)
    (h : i < (attachEnds dur sl).length) :
    ((attachEnds dur sl).get ⟨i, h⟩).«end» =
      if h2 : i + 1 < sl.length then (sl.get ⟨i + 1, h2⟩).start else dur := by
  induction sl generalizing i with
  | nil => simp [attachEnds] at h
  | cons a tl ih =>
    cases tl with
    | nil =>
      cases i with
      | zero => simp [attachEnds]
      | succ n =>
        have hlt : n + 1 < 1 := by simpa [attachEnds] using h
        omega
    | cons b rest =>
      cases i with
      | zero =>
        have h1 : (0 : Nat) + 1 < (a :: b :: rest).length := by simp
        rw [dif_pos h1]
        rfl
      | succ n =>
        have hn : n < (attachEnds dur (b :: rest)).length := by
          simpa [attachEnds] using h
        have hL : (attachEnds dur (a :: b :: rest)).get ⟨n + 1, h⟩ =
            (attachEnds dur (b :: rest)).get ⟨n, hn⟩ := by
          simp [attachEnds]
        rw [hL, ih n hn]
        by_cases hc : n + 1 < (b :: rest).length
        · have hc2 : n + 1 + 1 < (a :: b :: rest).length := by
            simpa using hc
          rw [dif_pos hc, dif_pos hc2]
          rfl
        · have hc2 : ¬ (n + 1 + 1 < (a :: b :: rest).length) := by
            simpa using hc
          rw [dif_neg hc, dif_neg hc2]

theorem attachEnds_map_start (dur : ℚ) (sl : List StartLine) :
    (attachEnds dur sl).map LyricLine.start = sl.map StartLine.start := by
  induction sl with
  | nil => rfl
  | cons a tl ih =>
    cases tl with
    | nil => rfl
    | cons b rest => simpa [attachEnds] using ih

theorem text_mem_attachEnds (dur : ℚ) (sl : List StartLine) (x : LyricLine)
    (hx : x ∈ attachEnds dur sl) : ∃ a ∈ sl, x.text = a.line := by
  induction sl with
  | nil => simp [attachEnds] at hx
  | cons a tl ih =>
    cases tl with
    | nil =>
      simp [attachEnds] at hx
      exact ⟨a, by simp, by rw [hx]⟩
    | cons b rest =>
      simp only [attachEnds, List.mem_cons] at hx
      rcases hx with h1 | h2
      · exact ⟨a, by simp, by rw [h1]⟩
      · obtain ⟨c, hc, hcx⟩ := ih h2
        exact ⟨c, List.mem_cons_of_mem a hc, hcx⟩

/-! ### Evaluation of the parser on the fixture records -/

theorem startLinesOf_oneLineRec : startLinesOf oneLineRec = [⟨"Hello", 3 / 2⟩] := by
  simp [startLinesOf, oneLineRec, mkRec, processLine, matchTimestamp, trimChars, isJsSpace,
    isLineTerminator, digitVal, splitLines, replaceNewlines, placeholder, List.dropWhile,
    List.filterMap, Char.isDigit]
  norm_num

theorem parseSyncedLyrics_oneLineRec :
    parseSyncedLyrics oneLineRec = .ok [⟨3 / 2, 10, "Hello"⟩] := by
  rw [parseSyncedLyrics, if_neg (by decide), startLinesOf_oneLineRec]
  rfl

theorem startLinesOf_scenarioRec :
    startLinesOf scenarioRec = [⟨"Hello", 3 / 2⟩, ⟨"World", 3⟩] := by
  simp [startLinesOf, scenarioRec, mkRec, processLine, matchTimestamp, trimChars, isJsSpace,
    isLineTerminator, digitVal, splitLines, replaceNewlines, placeholder, List.dropWhile,
    List.filterMap, Char.isDigit]
  norm_num

theorem parseSyncedLyrics_scenarioRec :
    parseSyncedLyrics scenarioRec = .ok [⟨3 / 2, 3, "Hello"⟩, ⟨3, 10, "World"⟩] := by
  rw [parseSyncedLyrics, if_neg (by decide), startLinesOf_scenarioRec]
  rfl

theorem startLinesOf_wsRec : startLinesOf wsRec = [⟨placeholder, 623 / 10⟩] := by
  simp [startLinesOf, wsRec, mkRec, processLine, matchTimestamp, trimChars, isJsSpace,
    isLineTerminator, digitVal, splitLines, replaceNewlines, placeholder, List.dropWhile,
    List.filterMap, Char.isDigit]
  norm_num

theorem parseSyncedLyrics_wsRec :
    parseSyncedLyrics wsRec = .ok [⟨623 / 10, 70, placeholder⟩] := by
  rw [parseSyncedLyrics, if_neg (by decide), startLinesOf_wsRec]
  rfl

theorem startLinesOf_outOfOrderRec :
    startLinesOf outOfOrderRec = [⟨"B", 2⟩, ⟨"A", 1⟩] := by
  simp [startLinesOf, outOfOrderRec, mkRec, processLine, matchTimestamp, trimChars, isJsSpace,
    isLineTerminator, digitVal, splitLines, replaceNewlines, placeholder, List.dropWhile,
    List.filterMap, Char.isDigit]

theorem parseSyncedLyrics_outOfOrderRec :
    parseSyncedLyrics outOfOrderRec = .ok [⟨2, 1, "B"⟩, ⟨1, 10, "A"⟩] := by
  rw [parseSyncedLyrics, if_neg (by decide), startLinesOf_outOfOrderRec]
  rfl

theorem startLinesOf_noMatchRec : startLinesOf noMatchRec = [] := by
  decide

theorem parseSyncedLyrics_noMatchRec : parseSyncedLyrics noMatchRec = .ok [] := by
  rw [parseSyncedLyrics, if_neg (by decide), startLinesOf_noMatchRec]
  rfl

/-! ### Lemmas about trimming and the timestamp grammar -/

theorem mem_of_mem_trimChars {c : Char} {l : List Char} (h : c ∈ trimChars l) : c ∈ l := by
  unfold trimChars at h
  rw [List.mem_reverse] at h
  have h2 := (List.dropWhile_sublist _).subset h
  rw [List.mem_reverse] at h2
  exact (List.dropWhile_sublist _).subset h2

theorem mem_dropWhile_of_not {p : Char → Bool} {c : Char} (hns : p c = false) :
    ∀ {l : List Char}, c ∈ l → c ∈ l.dropWhile p := by
  intro l
  induction l with
  | nil => intro h; exact absurd h (by simp)
  | cons a tl ih =>
    intro h
    rw [List.dropWhile_cons]
    by_cases hp : p a
    · rw [if_pos hp]
      rcases List.mem_cons.mp h with hca | h2
      · rw [hca] at hns; rw [hns] at hp; cases hp
      · exact ih h2
    · rw [if_neg hp]
      exact h

theorem trimChars_ne_nil {c : Char} {l : List Char} (hc : c ∈ l)
    (hns : isJsSpace c = false) : trimChars l ≠ [] := by
  unfold trimChars
  simp only [ne_eq, List.reverse_eq_nil_iff, List.dropWhile_eq_nil_iff]
  intro h
  have h1 : c ∈ (l.dropWhile isJsSpace).reverse :=
    List.mem_reverse.mpr (mem_dropWhile_of_not hns hc)
  have h2 := h c h1
  rw [hns] at h2
  cases h2

theorem matchTimestamp_eq_some {l : List Char} {v : Nat × Nat × Nat × List Char}
    (h : matchTimestamp l = some v) :
    ∃ (a b c d e f : Char) (rest : List Char),
      l = '[' :: a :: b :: ':' :: c :: d :: '.' :: e :: f :: ']' :: rest ∧
      a.isDigit = true ∧ b.isDigit = true ∧ c.isDigit = true ∧
      d.isDigit = true ∧ e.isDigit = true ∧ f.isDigit = true ∧
      (∀ ch ∈ rest, isLineTerminator ch = false) ∧
      v = (10 * digitVal a + digitVal b, 10 * digitVal c + digitVal d,
           10 * digitVal e + digitVal f, rest) := by
  unfold matchTimestamp at h
  split at h
  · next a b c d e f rest =>
    split at h
    · next hcond =>
      simp only [Bool.and_eq_true, List.all_eq_true, Bool.not_eq_true'] at hcond
      obtain ⟨⟨⟨⟨⟨⟨ha, hb⟩, hc⟩, hd⟩, he⟩, hf⟩, hrest⟩ := hcond
      exact ⟨a, b, c, d, e, f, rest, rfl, ha, hb, hc, hd, he, hf, hrest,
        (Option.some.injEq _ _ ▸ h).symm⟩
    · cases h
  · cases h

theorem matchTimestamp_of_grammar {a b c d e f : Char} {rest : List Char}
    (ha : a.isDigit = true) (hb : b.isDigit = true) (hc : c.isDigit = true)
    (hd : d.isDigit = true) (he : e.isDigit = true) (hf : f.isDigit = true)
    (hrest : ∀ ch ∈ rest, isLineTerminator ch = false) :
    matchTimestamp ('[' :: a :: b :: ':' :: c :: d :: '.' :: e :: f :: ']' :: rest) =
      some (10 * digitVal a + digitVal b, 10 * digitVal c + digitVal d,
            10 * digitVal e + digitVal f, rest) := by
  have hcond : (a.isDigit && b.isDigit && c.isDigit && d.isDigit && e.isDigit && f.isDigit
      && rest.all fun ch => !(isLineTerminator ch)) = true := by
    simp only [Bool.and_eq_true, List.all_eq_true, Bool.not_eq_true']
    exact ⟨⟨⟨⟨⟨⟨ha, hb⟩, hc⟩, hd⟩, he⟩, hf⟩, hrest⟩
  simp [matchTimestamp, hcond]

theorem processLine_eq_of_match {l : List Char} {mm ss ff : Nat} {rest : List Char}
    (h : matchTimestamp l = some (mm, ss, ff, rest)) :
    processLine l =
      some ⟨String.mk (if trimChars rest = [] then placeholder.data else trimChars rest),
            (mm : ℚ) * 60 + (ss : ℚ) + (ff : ℚ) / 100⟩ := by
  obtain ⟨a, b, c, d, e, f, rest', hl, ha, hb, hc, hd, he, hf, hrest, hv⟩ :=
    matchTimestamp_eq_some h
  have hrest' : rest = rest' := by
    have := congrArg (fun q : Nat × Nat × Nat × List Char => q.2.2.2) hv
    simpa using this
  subst hrest'
  have hne : trimChars l ≠ [] := by
    refine trimChars_ne_nil (c := '[') ?_ (by decide)
    rw [hl]; exact List.mem_cons_self _ _
  have hnl : ('\n' : Char) ∉ trimChars rest := by
    intro hmem
    have := hrest '\n' (mem_of_mem_trimChars hmem)
    simp [isLineTerminator] at this
  unfold processLine
  rw [if_neg hne, h]
  simp only []
  by_cases h0 : trimChars rest = []
  · rw [if_pos h0]
    have hcp : ('\n' : Char) ∉ placeholder.data := by decide
    simp [hcp]
  · rw [if_neg h0]
    simp [hnl]

theorem processLine_isSome_iff_grammar (l : List Char) :
    (processLine l).isSome = true ↔ timestampGrammar l := by
  constructor
  · intro h
    unfold processLine at h
    split at h
    · cases h
    · rename_i hne
      split at h
      · cases h
      · rename_i mm ss ff rest hm
        obtain ⟨a, b, c, d, e, f, rest', hl, ha, hb, hc, hd, he, hf, hrest, _⟩ :=
          matchTimestamp_eq_some hm
        exact ⟨a, b, c, d, e, f, rest', hl, ha, hb, hc, hd, he, hf, hrest⟩
  · rintro ⟨a, b, c, d, e, f, rest, hl, ha, hb, hc, hd, he, hf, hrest⟩
    subst hl
    rw [processLine_eq_of_match (matchTimestamp_of_grammar ha hb hc hd he hf hrest)]
    rfl

theorem processLine_some_match {l : List Char} {sl : StartLine}
    (hp : processLine l = some sl) :
    ∃ mm ss ff rest, matchTimestamp l = some (mm, ss, ff, rest) := by
  unfold processLine at hp
  split at hp
  · cases hp
  · split at hp
    · cases hp
    · rename_i mm ss ff rest hm
      exact ⟨mm, ss, ff, rest, hm⟩

theorem processLine_text_ne_empty {l : List Char} {sl : StartLine}
    (hp : processLine l = some sl) : sl.line ≠ "" := by
  obtain ⟨mm, ss, ff, rest, hm⟩ := processLine_some_match hp
  rw [processLine_eq_of_match hm] at hp
  have hsl := (Option.some.injEq _ _).mp hp
  intro hempty
  rw [← hsl] at hempty
  have hdata : (if trimChars rest = [] then placeholder.data else trimChars rest) = [] :=
    congrArg String.data hempty
  by_cases h0 : trimChars rest = []
  · rw [if_pos h0] at hdata
    exact absurd hdata (by decide)
  · rw [if_neg h0] at hdata
    exact h0 hdata

/-! ### The left-to-right closest-duration reduce -/

theorem foldl_closerTo_spec (t : ℚ) (xs : List LyricSearchResult) (x : LyricSearchResult) :
    ∃ l₁ l₂, x :: xs = l₁ ++ (xs.foldl (closerTo t) x) :: l₂
      ∧ (∀ y ∈ x :: xs, |(xs.foldl (closerTo t) x).duration - t| ≤ |y.duration - t|)
      ∧ (∀ y ∈ l₁, |(xs.foldl (closerTo t) x).duration - t| < |y.duration - t|) := by
  induction xs generalizing x with
  | nil => exact ⟨[], [], rfl, by simp, by simp⟩
  | cons y ys ih =>
    rw [List.foldl_cons]
    obtain ⟨l₁, l₂, hsplit, hmin, hstrict⟩ := ih (closerTo t x y)
    by_cases hlt : |y.duration - t| < |x.duration - t|
    · have hcy : closerTo t x y = y := if_pos hlt
      rw [hcy] at hsplit hmin hstrict
      rw [hcy]
      have hry : |((ys.foldl (closerTo t) y).duration) - t| ≤ |y.duration - t| :=
        hmin y (List.mem_cons_self _ _)
      refine ⟨x :: l₁, l₂, ?_, ?_, ?_⟩
      · rw [List.cons_append, ← hsplit]
      · intro z hz
        rcases List.mem_cons.mp hz with hzx | hz2
        · rw [hzx]; exact le_of_lt (lt_of_le_of_lt hry hlt)
        · exact hmin z hz2
      · intro z hz
        rcases List.mem_cons.mp hz with hzx | hz2
        · rw [hzx]; exact lt_of_le_of_lt hry hlt
        · exact hstrict z hz2
    · have hcx : closerTo t x y = x := if_neg hlt
      rw [hcx] at hsplit hmin hstrict
      rw [hcx]
      have hxy : |x.duration - t| ≤ |y.duration - t| := le_of_not_lt hlt
      cases l₁ with
      | nil =>
        have hrx : ys.foldl (closerTo t) x = x := (List.cons.injEq _ _ _ _ ▸ hsplit).1.symm
        have hl₂ : ys = l₂ := (List.cons.injEq _ _ _ _ ▸ hsplit).2
        refine ⟨[], y :: ys, ?_, ?_, ?_⟩
        · rw [List.nil_append, hrx]
        · intro z hz
          rcases List.mem_cons.mp hz with hzx | hz2
          · rw [hzx]; exact hmin x (List.mem_cons_self _ _)
          · rcases List.mem_cons.mp hz2 with hzy | hz3
            · rw [hzy]
              exact le_trans (hmin x (List.mem_cons_self _ _)) hxy
            · exact hmin z (List.mem_cons_of_mem _ hz3)
        · intro z hz
          simp at hz
      | cons z₀ l₁' =>
        have hz₀ : z₀ = x := ((List.cons.injEq _ _ _ _).mp hsplit).1.symm
        have hys : ys = l₁' ++ (ys.foldl (closerTo t) x) :: l₂ :=
          ((List.cons.injEq _ _ _ _).mp hsplit).2
        have hrltx : |(ys.foldl (closerTo t) x).duration - t| < |x.duration - t| := by
          refine hstrict z₀ ?_ |>.trans_le ?_
          · exact List.mem_cons_self _ _
          · rw [hz₀]
        refine ⟨x :: y :: l₁', l₂, ?_, ?_, ?_⟩
        · rw [List.cons_append, List.cons_append, ← hys]
        · intro z hz
          rcases List.mem_cons.mp hz with hzx | hz2
          · rw [hzx]; exact le_of_lt hrltx
          · rcases List.mem_cons.mp hz2 with hzy | hz3
            · rw [hzy]; exact le_of_lt (lt_of_lt_of_le hrltx hxy)
            · exact hmin z (List.mem_cons_of_mem _ hz3)
        · intro z hz
          rcases List.mem_cons.mp hz with hzx | hz2
          · rw [hzx]; exact hrltx
          · rcases List.mem_cons.mp hz2 with hzy | hz3
            · rw [hzy]; exact lt_of_lt_of_le hrltx hxy
            · exact hstrict z (List.mem_cons_of_mem _ hz3)

/-! ### Branch behaviour of `getLyrics` -/

theorem getLyrics_unfold (data : List LyricSearchResult) (dur : Option JSVal) (so : Bool)
    (hbad : badDuration dur = false) (hdata : data ≠ []) :
    getLyrics data dur so =
      if optTruthy dur then
        match filteredOf data so with
        | [] => .error .typeError
        | x :: xs => .ok (xs.foldl (closerTo (numVal dur)) x)
      else
        match filteredOf data so with
        | [] => .error .notFound
        | x :: _ => .ok x := by
  unfold getLyrics querySongLyrics filteredOf
  simp only [hbad, Bool.false_eq_true, if_false, if_neg hdata]

/-! ### Claim theorems: the parser -/

/-- C1: whenever `parseSyncedLyrics` succeeds with at least one timed line,
every line's `end` equals the next line's `start`, and the last line's
`end` equals the record's declared `duration` — with no correction for a
duration inconsistent with the last start.  A one-line parse is the
`getLast` case with a singleton list. -/
theorem parse_end_boundaries (r : LyricSearchResult) (ls : List LyricLine)
    (hp : parseSyncedLyrics r = .ok ls) (hne : ls ≠ []) :
    (∀ i, ∀ h : i + 1 < ls.length,
        (ls.get ⟨i, Nat.lt_of_succ_lt h⟩).«end» = (ls.get ⟨i + 1, h⟩).start)
    ∧ (ls.getLast hne).«end» = r.duration := by
  unfold parseSyncedLyrics at hp
  split at hp
  · cases hp
  · have hls : ls = attachEnds r.duration (startLinesOf r) :=
      ((Except.ok.injEq _ _).mp hp).symm
    subst hls
    constructor
    · intro i h
      have hlen : i + 1 < (startLinesOf r).length := by
        rw [← attachEnds_length r.duration (startLinesOf r)]
        exact h
      rw [attachEnds_get_end r.duration (startLinesOf r) i (Nat.lt_of_succ_lt h),
        dif_pos hlen, attachEnds_get_start r.duration (startLinesOf r) (i + 1) h hlen]
    · have hpos : 0 < (attachEnds r.duration (startLinesOf r)).length :=
        List.length_pos.mpr hne
      rw [List.getLast_eq_get, attachEnds_get_end]
      have hno : ¬((attachEnds r.duration (startLinesOf r)).length - 1 + 1 <
          (startLinesOf r).length) := by
        rw [attachEnds_length] at hpos ⊢
        omega
      rw [dif_neg hno]

/-- Witness for C1: the single-line record parses to one line whose `end`
is the record's duration. -/
theorem parse_end_boundaries_witness :
    ([(⟨3 / 2, 10, "Hello"⟩ : LyricLine)].getLast (by simp)).«end» = oneLineRec.duration :=
  (parse_end_boundaries oneLineRec [⟨3 / 2, 10, "Hello"⟩]
    parseSyncedLyrics_oneLineRec (by simp)).2

/-- C3: a physical line is recorded exactly when it matches the grammar
`[MM:SS.ff]<rest>` (two digit minutes, two digit seconds, a literal
period, two digits of hundredths); a matching line's start is
`MM*60 + SS.ff`; and the spec scenario parses as stated. -/
theorem parse_line_grammar :
    (∀ l : List Char, (processLine l).isSome = true ↔ timestampGrammar l)
    ∧ (∀ (a b c d e f : Char) (rest : List Char) (sl : StartLine),
        processLine ('[' :: a :: b :: ':' :: c :: d :: '.' :: e :: f :: ']' :: rest) =
          some sl →
        sl.start = ((10 * digitVal a + digitVal b : ℕ) : ℚ) * 60 +
          ((10 * digitVal c + digitVal d : ℕ) : ℚ) +
          ((10 * digitVal e + digitVal f : ℕ) : ℚ) / 100)
    ∧ parseSyncedLyrics scenarioRec = .ok [⟨3 / 2, 3, "Hello"⟩, ⟨3, 10, "World"⟩] := by
  refine ⟨processLine_isSome_iff_grammar, ?_, parseSyncedLyrics_scenarioRec⟩
  intro a b c d e f rest sl hp
  obtain ⟨mm, ss, ff, rest', hm⟩ := processLine_some_match hp
  rw [processLine_eq_of_match hm] at hp
  have hsl := (Option.some.injEq _ _).mp hp
  obtain ⟨a', b', c', d', e', f', rest'', hl, _, _, _, _, _, _, _, hv⟩ :=
    matchTimestamp_eq_some hm
  simp only [List.cons.injEq, true_and] at hl
  obtain ⟨ha, hb, hc, hd, he, hf, _⟩ := hl
  simp only [Prod.mk.injEq] at hv
  obtain ⟨hmm, hss, hff, _⟩ := hv
  rw [← hsl]
  show ((mm : ℚ) * 60 + (ss : ℚ) + (ff : ℚ) / 100) = _
  rw [hmm, hss, hff, ha, hb, hc, hd, he, hf]

/-- Witness for C3: the scenario's first line satisfies the grammar. -/
theorem parse_line_grammar_witness : timestampGrammar ("[00:01.50]Hello".data) :=
  (parse_line_grammar.1 "[00:01.50]Hello".data).mp (by decide)

/-- C5 (amended): the emitted `start` values are exactly the matched
timestamps in order of appearance; the output is non-decreasing whenever
the text's matched timestamps appear in non-decreasing order, but the
claimed invariant does not hold for all inputs (see the counterexample):
lines are not sorted by time. -/
theorem parse_starts_follow_text (r : LyricSearchResult) (ls : List LyricLine)
    (hp : parseSyncedLyrics r = .ok ls) :
    ls.map LyricLine.start = (startLinesOf r).map StartLine.start
    ∧ (List.Chain' (fun a b : StartLine => a.start ≤ b.start) (startLinesOf r) →
        List.Chain' (fun l1 l2 : LyricLine => l1.start ≤ l2.start) ls) := by
  unfold parseSyncedLyrics at hp
  split at hp
  · cases hp
  · have hls : ls = attachEnds r.duration (startLinesOf r) :=
      ((Except.ok.injEq _ _).mp hp).symm
    subst hls
    refine ⟨attachEnds_map_start _ _, ?_⟩
    intro hch
    have h1 : List.Chain' (fun a b : ℚ => a ≤ b)
        ((startLinesOf r).map StartLine.start) := by
      rw [List.chain'_map]
      exact hch
    rw [← attachEnds_map_start r.duration, List.chain'_map] at h1
    exact h1

/-- Witness for C5: the chronological scenario record yields
non-decreasing starts. -/
theorem parse_starts_follow_text_witness :
    List.Chain' (fun l1 l2 : LyricLine => l1.start ≤ l2.start)
      [⟨3 / 2, 3, "Hello"⟩, ⟨3, 10, "World"⟩] :=
  (parse_starts_follow_text scenarioRec _ parseSyncedLyrics_scenarioRec).2 (by
    rw [startLinesOf_scenarioRec]
    refine List.chain'_cons.mpr ⟨by norm_num, List.chain'_singleton _⟩)

/-- C5 counterexample: a record whose two matching lines carry decreasing
timestamps parses to starts `[2, 1]`, so the claimed for-all-inputs
non-decreasing invariant is false (note also `end < start` on line 1). -/
theorem parse_starts_not_monotone_cex :
    parseSyncedLyrics outOfOrderRec = .ok [⟨2, 1, "B"⟩, ⟨1, 10, "A"⟩]
    ∧ ¬ List.Chain' (fun l1 l2 : LyricLine => l1.start ≤ l2.start)
        [⟨2, 1, "B"⟩, ⟨1, 10, "A"⟩] := by
  refine ⟨parseSyncedLyrics_outOfOrderRec, ?_⟩
  intro hch
  have h2 := (List.chain'_cons.mp hch).1
  norm_num at h2

/-- C6: `parseSyncedLyrics` fails with `NoSyncedLyrics` exactly when the
record's synced text is the empty string, and a non-empty text none of
whose lines is recorded parses to the empty list, not an error. -/
theorem parse_empty_text_behaviour (r : LyricSearchResult) :
    (parseSyncedLyrics r = .error .noSyncedLyrics ↔ r.syncedLyrics = "")
    ∧ (r.syncedLyrics ≠ "" →
        (∀ line ∈ splitLines r.syncedLyrics.data, processLine line = none) →
        parseSyncedLyrics r = .ok []) := by
  constructor
  · constructor
    · intro h
      by_contra hne
      unfold parseSyncedLyrics at h
      rw [if_neg hne] at h
      cases h
    · intro h
      unfold parseSyncedLyrics
      rw [if_pos h]
  · intro hne hnone
    have hsl : startLinesOf r = [] := by
      unfold startLinesOf
      exact List.filterMap_eq_nil.mpr hnone
    unfold parseSyncedLyrics
    rw [if_neg hne, hsl]
    rfl

/-- Witness for C6: `"hello world"` has no matching line and parses to the
empty list. -/
theorem parse_empty_text_behaviour_witness :
    parseSyncedLyrics noMatchRec = .ok [] :=
  (parse_empty_text_behaviour noMatchRec).2 (by decide) (by decide)

/-- C8: every emitted line's text is non-empty; a matched line whose rest
trims to the empty string is emitted with the placeholder marker and any
other matched line with its trimmed rest; the whitespace-rest scenario
yields the placeholder. -/
theorem parse_text_nonempty (r : LyricSearchResult) (ls : List LyricLine)
    (hp : parseSyncedLyrics r = .ok ls) :
    (∀ l ∈ ls, l.text ≠ "")
    ∧ (∀ (line : List Char) (mm ss ff : Nat) (rest : List Char) (sl : StartLine),
        matchTimestamp line = some (mm, ss, ff, rest) → processLine line = some sl →
        sl.line = if trimChars rest = [] then placeholder else String.mk (trimChars rest))
    ∧ parseSyncedLyrics wsRec = .ok [⟨623 / 10, 70, placeholder⟩] := by
  refine ⟨?_, ?_, parseSyncedLyrics_wsRec⟩
  · intro l hl
    unfold parseSyncedLyrics at hp
    split at hp
    · cases hp
    · have hls : ls = attachEnds r.duration (startLinesOf r) :=
        ((Except.ok.injEq _ _).mp hp).symm
      subst hls
      obtain ⟨a, ha, hta⟩ := text_mem_attachEnds _ _ _ hl
      obtain ⟨line, _, hsome⟩ := List.mem_filterMap.mp ha
      rw [hta]
      exact processLine_text_ne_empty hsome
  · intro line mm ss ff rest sl hm hpl
    rw [processLine_eq_of_match hm] at hpl
    have hsl := (Option.some.injEq _ _).mp hpl
    rw [← hsl]
    by_cases h0 : trimChars rest = []
    · rw [if_pos h0, if_pos h0]
    · rw [if_neg h0, if_neg h0]

/-- Witness for C8: the emitted line of the whitespace-rest record has
non-empty text. -/
theorem parse_text_nonempty_witness :
    (⟨623 / 10, 70, placeholder⟩ : LyricLine).text ≠ "" :=
  (parse_text_nonempty wsRec [⟨623 / 10, 70, placeholder⟩] parseSyncedLyrics_wsRec).1
    _ (List.mem_singleton.mpr rfl)

/-- With no `duration` option and a non-empty filtered list, `getLyrics`
returns the head of the filtered list. -/
theorem getLyrics_none_first (data : List LyricSearchResult) (so : Bool)
    (x : LyricSearchResult) (xs : List LyricSearchResult)
    (hf : filteredOf data so = x :: xs) : getLyrics data none so = .ok x := by
  have hdata : data ≠ [] := by
    intro h
    rw [h] at hf
    cases so <;> simp [filteredOf, syncedFilter] at hf
  rw [getLyrics_unfold data none so rfl hdata, hf]
  simp [optTruthy]

/-! ### Claim theorems: the selector -/


/-- C2 (amended): for every non-empty filtered candidate list and every
provided nonzero numeric `targetDuration`, `getLyrics` returns the first
record minimizing `abs(duration - targetDuration)` (every earlier record
has a strictly larger difference, every record a difference at least as
large); a provided `targetDuration` of `0` is falsy and is instead treated
as absent, returning the first filtered record (see the counterexample). -/
theorem getLyrics_closest_first (data : List LyricSearchResult) (so : Bool) (t : ℚ)
    (ht : t ≠ 0) (hne : filteredOf data so ≠ []) :
    ∃ l₁ r l₂, filteredOf data so = l₁ ++ r :: l₂
      ∧ getLyrics data (some (JSVal.num t)) so = .ok r
      ∧ (∀ y ∈ filteredOf data so, |r.duration - t| ≤ |y.duration - t|)
      ∧ (∀ y ∈ l₁, |r.duration - t| < |y.duration - t|) := by
  have hdata : data ≠ [] := by
    intro h
    rw [h] at hne
    exact hne (by cases so <;> simp [filteredOf, syncedFilter])
  obtain ⟨x, xs, hxs⟩ := List.exists_cons_of_ne_nil hne
  obtain ⟨l₁, l₂, hsplit, hmin, hstrict⟩ := foldl_closerTo_spec t xs x
  refine ⟨l₁, xs.foldl (closerTo t) x, l₂, by rw [hxs]; exact hsplit, ?_, ?_, ?_⟩
  · rw [getLyrics_unfold data (some (JSVal.num t)) so
      (by simp [badDuration, jsTruthy, isNumberType]) hdata, hxs]
    simp [optTruthy, jsTruthy, ht, numVal]
  · intro y hy
    rw [hxs] at hy
    exact hmin y hy
  · exact hstrict

/-- C2 counterexample: `targetDuration = 0` is provided and numeric, yet
the code returns the first record (duration 5) although the duration-0
record strictly minimizes `abs(duration - 0)`. -/
theorem getLyrics_closest_cex :
    getLyrics [dur5Rec, dur0Rec] (some (JSVal.num 0)) false = .ok dur5Rec
    ∧ |dur0Rec.duration - 0| < |dur5Rec.duration - 0| := by
  constructor
  · simp [getLyrics, querySongLyrics, badDuration, jsTruthy, isNumberType, optTruthy]
  · norm_num [dur5Rec, dur0Rec, mkRec]

/-- Witness for C2 at the spec example: durations `[200, 260, 300]` with
target 263 select the 260 record. -/
theorem getLyrics_closest_first_witness :
    getLyrics [rec200, rec260, rec300] (some (JSVal.num 263)) false = .ok rec260
    ∧ ∃ l₁ r l₂, filteredOf [rec200, rec260, rec300] false = l₁ ++ r :: l₂
      ∧ getLyrics [rec200, rec260, rec300] (some (JSVal.num 263)) false = .ok r
      ∧ (∀ y ∈ filteredOf [rec200, rec260, rec300] false,
          |r.duration - 263| ≤ |y.duration - 263|)
      ∧ (∀ y ∈ l₁, |r.duration - 263| < |y.duration - 263|) :=
  ⟨by
    rw [getLyrics_unfold [rec200, rec260, rec300] (some (JSVal.num 263)) false
      (by simp [badDuration, jsTruthy, isNumberType]) (by simp)]
    norm_num [optTruthy, jsTruthy, numVal, filteredOf, closerTo, rec200, rec260, rec300, mkRec],
   getLyrics_closest_first [rec200, rec260, rec300] false 263 (by norm_num)
     (by simp [filteredOf])⟩

/-- C4 (amended): with `syncedOnly = true`, a non-empty search result, and
an empty filtered set, `getLyrics` fails with `NotFound` when the duration
option is absent or `0` (falsy), but with a truthy numeric duration it
instead crashes with the `TypeError` of reducing an empty array — not the
`NotFound` condition the claim states. -/
theorem getLyrics_empty_filter (data : List LyricSearchResult) (hdata : data ≠ [])
    (hfilt : syncedFilter data = []) :
    getLyrics data none true = .error .notFound
    ∧ (∀ t : ℚ, t ≠ 0 → getLyrics data (some (JSVal.num t)) true = .error .typeError)
    ∧ getLyrics data (some (JSVal.num 0)) true = .error .notFound := by
  have hfo : filteredOf data true = [] := by simp [filteredOf, hfilt]
  refine ⟨?_, ?_, ?_⟩
  · rw [getLyrics_unfold data none true rfl hdata, hfo]
    simp [optTruthy]
  · intro t ht
    rw [getLyrics_unfold data (some (JSVal.num t)) true
      (by simp [badDuration, jsTruthy, isNumberType]) hdata, hfo]
    simp [optTruthy, jsTruthy, ht]
  · rw [getLyrics_unfold data (some (JSVal.num 0)) true
      (by simp [badDuration, jsTruthy, isNumberType]) hdata, hfo]
    simp [optTruthy, jsTruthy]

/-- C4 counterexample: one candidate with empty synced text, `syncedOnly`,
and a provided duration 263: the call ends in the empty-reduce
`TypeError`, not in the `NotFound` condition. -/
theorem getLyrics_empty_filter_cex :
    getLyrics [noSyncRec] (some (JSVal.num 263)) true = .error .typeError
    ∧ (Except.error LyricError.typeError : Except LyricError LyricSearchResult) ≠
        .error .notFound := by
  constructor
  · norm_num [getLyrics, querySongLyrics, badDuration, jsTruthy, isNumberType, optTruthy,
      syncedFilter, noSyncRec, mkRec]
  · decide

/-- Witness for C4: the same empty-filter situation with no duration does
fail with `NotFound`. -/
theorem getLyrics_empty_filter_witness :
    getLyrics [noSyncRec] none true = .error .notFound :=
  (getLyrics_empty_filter [noSyncRec] (by simp) (by decide)).1

/-- C7 (amended): a truthy non-numeric duration fails with
`InvalidArgument` before any search or filtering (the theorem holds for
every search result, including the empty one, which would otherwise give
`NotFound`); but a falsy non-numeric duration (such as the empty string)
bypasses the check, and the call behaves as if no duration were given. -/
theorem getLyrics_nonnumeric_duration (data : List LyricSearchResult) (so : Bool)
    (v : JSVal) (hn : isNumberType v = false) :
    (jsTruthy v = true → getLyrics data (some v) so = .error .invalidArgument)
    ∧ (jsTruthy v = false → getLyrics data (some v) so = getLyrics data none so) := by
  constructor
  · intro hv
    have hb : badDuration (some v) = true := by simp [badDuration, hv, hn]
    simp only [getLyrics, hb, if_true]
  · intro hv
    have h1 : badDuration (some v) = false := by simp [badDuration, hv]
    have h2 : optTruthy (some v) = false := by simp [optTruthy, hv]
    by_cases hdata : data = []
    · subst hdata
      unfold getLyrics querySongLyrics
      rw [h1]
      rfl
    · rw [getLyrics_unfold data (some v) so h1 hdata,
        getLyrics_unfold data none so rfl hdata, h2]
      rfl

/-- C7 counterexample: the empty string is a non-numeric duration value,
yet the call succeeds with the first record instead of failing with
`InvalidArgument` (the empty string is falsy, so the check is skipped). -/
theorem getLyrics_nonnumeric_cex :
    getLyrics [rec200] (some (JSVal.str "")) false = .ok rec200 := by
  simp [getLyrics, querySongLyrics, badDuration, jsTruthy, isNumberType, optTruthy]

/-- Witness for C7: a truthy non-numeric duration yields `InvalidArgument`
even with an empty search result (the check precedes the search). -/
theorem getLyrics_nonnumeric_witness :
    getLyrics [] (some (JSVal.str "x")) false = .error .invalidArgument :=
  (getLyrics_nonnumeric_duration [] false (JSVal.str "x") (by decide)).1 (by decide)

/-- C9: every successful selection returns an element of the filtered
candidate list (never a synthesized record; with `syncedOnly` never one
with empty synced text), and with no duration the first filtered record in
provider order is returned. -/
theorem getLyrics_member (data : List LyricSearchResult) (so : Bool) (dur : Option JSVal) :
    (∀ r, getLyrics data dur so = .ok r →
      r ∈ filteredOf data so ∧ (so = true → r.syncedLyrics ≠ ""))
    ∧ (∀ x xs, filteredOf data so = x :: xs → getLyrics data none so = .ok x) := by
  have hmem_filter : ∀ r, r ∈ filteredOf data so → so = true → r.syncedLyrics ≠ "" := by
    intro r hr hso
    rw [hso] at hr
    simp only [filteredOf, if_true, syncedFilter] at hr
    simpa using (List.mem_filter.mp hr).2
  have hdata_of_filtered : ∀ x xs, filteredOf data so = x :: xs → data ≠ [] := by
    intro x xs hf h
    rw [h] at hf
    cases so <;> simp [filteredOf, syncedFilter] at hf
  constructor
  · intro r h
    by_cases hbad : badDuration dur = true
    · unfold getLyrics at h
      rw [if_pos hbad] at h
      cases h
    · have hbad2 : badDuration dur = false := by
        cases hb : badDuration dur
        · rfl
        · exact absurd hb hbad
      by_cases hdata : data = []
      · subst hdata
        unfold getLyrics querySongLyrics at h
        rw [hbad2] at h
        simp at h
      · rw [getLyrics_unfold data dur so hbad2 hdata] at h
        cases hf : filteredOf data so with
        | nil =>
          rw [hf] at h
          by_cases hopt : optTruthy dur = true <;> simp [hopt] at h
        | cons x xs =>
          rw [hf] at h
          by_cases hopt : optTruthy dur = true
          · simp only [hopt, if_true] at h
            have hr : r = xs.foldl (closerTo (numVal dur)) x :=
              ((Except.ok.injEq _ _).mp h).symm
            obtain ⟨l₁, l₂, hsplit, -, -⟩ := foldl_closerTo_spec (numVal dur) xs x
            have hrm : r ∈ x :: xs := by
              rw [hr, hsplit]
              exact List.mem_append_right _ (List.mem_cons_self _ _)
            exact ⟨hrm, hmem_filter r (hf.symm ▸ hrm)⟩
          · have hopt2 : optTruthy dur = false := by
              cases ho : optTruthy dur
              · rfl
              · exact absurd ho hopt
            simp only [hopt2, Bool.false_eq_true, if_false] at h
            have hr : r = x := ((Except.ok.injEq _ _).mp h).symm
            have hrm : r ∈ x :: xs := by
              rw [hr]
              exact List.mem_cons_self _ _
            exact ⟨hrm, hmem_filter r (hf.symm ▸ hrm)⟩
  · intro x xs hf
    exact getLyrics_none_first data so x xs hf

/-- Witness for C9: with one candidate and no duration, the first (only)
record is returned. -/
theorem getLyrics_member_witness : getLyrics [rec200] none false = .ok rec200 :=
  (getLyrics_member [rec200] false none).2 rec200 [] (by simp [filteredOf])

/-- C10: calling `getLyrics` with duration `0` behaves exactly as if no
duration had been provided: `0` is falsy, so the type check and the
closest-match reduce are both skipped and the first filtered record is
returned (not the record minimizing `abs(duration - 0)`; see the C2
counterexample for that contrast). -/
theorem getLyrics_zero_duration (data : List LyricSearchResult) (so : Bool) :
    getLyrics data (some (JSVal.num 0)) so = getLyrics data none so
    ∧ (∀ x xs, filteredOf data so = x :: xs →
        getLyrics data (some (JSVal.num 0)) so = .ok x) := by
  have h1 : badDuration (some (JSVal.num 0)) = false := by
    simp [badDuration, jsTruthy]
  have h2 : optTruthy (some (JSVal.num 0)) = false := by
    simp [optTruthy, jsTruthy]
  have heq : getLyrics data (some (JSVal.num 0)) so = getLyrics data none so := by
    by_cases hdata : data = []
    · subst hdata
      unfold getLyrics querySongLyrics
      rw [h1]
      rfl
    · rw [getLyrics_unfold data (some (JSVal.num 0)) so h1 hdata,
        getLyrics_unfold data none so rfl hdata, h2]
      rfl
  refine ⟨heq, ?_⟩
  intro x xs hf
  rw [heq]
  exact getLyrics_none_first data so x xs hf

/-- Witness for C10: duration 0 with one candidate returns that first
record. -/
theorem getLyrics_zero_duration_witness :
    getLyrics [rec200] (some (JSVal.num 0)) false = .ok rec200 :=
  (getLyrics_zero_duration [rec200] false).2 rec200 [] (by simp [filteredOf])
